import Mathlib

/-!
# WaveSim — a shallow embedding of the wave-simulation engine

This file embeds the core of the WaveSim cellular-automaton engine
(classes `Utils`, `Ripple`, `WaveModel` of the source) into Lean and
proves/refutes the frozen specification claims about it.

Modelling conventions:
* JavaScript numbers are modelled as exact reals (`ℝ`); grid indices and
  ripple counters, which only ever hold integer values, are modelled as `ℤ`.
* The 2-D grids (JS arrays of arrays) are modelled as total functions
  `ℤ → ℤ → ℝ`; the engine only ever reads in-range entries (out-of-range
  reads are routed through the boundary accessor), and updates are guarded
  by the loop bounds `0 ≤ r < rows`, `0 ≤ c < cols`, exactly as the JS
  loops only write in-range entries.
* The JS `%` operator is truncated remainder (sign of the dividend), which
  for integer arguments is `Int.tmod`.
* `Math.random` (used when resolving ripple parameters and when spawning)
  is nondeterministic; ripples produced by it are modelled as explicit
  parameters (the list of freshly spawned ripples handed to `genForces`,
  and the resolved fields of a `Ripple`).
* The two JS array objects `this.ripples` / `this.ripples_` are modelled
  by a two-slot heap `Bool → ℕ → Ripple` together with the two reference
  fields `rp`, `rp_ : Bool`; this faithfully represents the aliasing that
  the source's swap code creates (`this.ripples = ripples_;
  this.ripples_ = this.ripples;` makes both references point to the same
  array object).
-/

namespace Utils

/-- `Utils.mod` from the source, verbatim including its final reduction:
`return n >= 0 ? n % m : ((n % m) + m) % n;` — note the `% n` (not `% m`)
in the negative branch.  JS `%` on integers is truncated remainder
(`Int.tmod`). -/
def mod (n m : ℤ) : ℤ :=
  if 0 ≤ n then Int.tmod n m else Int.tmod (Int.tmod n m + m) n

/-- `Utils.boundVal` from the source: `Math.max(Math.min(v, max), min)`. -/
noncomputable def boundVal (v mn mx : ℝ) : ℝ :=
  max (min v mx) mn

end Utils

/-- A 2-D numeric grid (a JS array-of-arrays of numbers). -/
abbrev Grid := ℤ → ℤ → ℝ

/-- The constant `FORCE_INFLUENCE = 0.1` of `WaveModel`. -/
noncomputable def FORCE_INFLUENCE : ℝ := 0.1

/-- A `Ripple` object: resolved wavelength, the remaining-ticks counter
`iWave`, the grid position and the resolved peak magnitude.
(`Ripple.init` resolves `wavelength`, `r`, `c`, `mag` — possibly via
`Math.random` — and sets `iWave = wavelength`; the resolved values are
modelled as the structure's fields.) -/
structure Ripple where
  wavelength : ℤ
  iWave : ℤ
  r : ℤ
  c : ℤ
  mag : ℝ

instance : Inhabited Ripple := ⟨⟨1, 1, 0, 0, 0⟩⟩

/-- A ripple as `Ripple.init` leaves it: `iWave` starts equal to the
resolved wavelength (`this.iWave = this.wavelength;`). -/
def Ripple.fresh (w r c : ℤ) (m : ℝ) : Ripple :=
  ⟨w, w, r, c, m⟩

open Real in
/-- `Ripple.prototype.applyForce` from the source.  It writes
`this.mag * Math.sin(wavePos * Math.PI * 2)` into the model's force grid
at the ripple's cell (an assignment, not an accumulation), decrements
`iWave`, and returns `this.iWave !== 0`.  The returned triple is
(the mutated ripple, the returned boolean, the updated force grid). -/
noncomputable def Ripple.applyForce (rp : Ripple) (F : Grid) :
    Ripple × Bool × Grid :=
  let wavePos : ℝ := ((rp.wavelength : ℝ) - (rp.iWave : ℝ)) / (rp.wavelength : ℝ)
  let F2 : Grid := fun r c =>
    if r = rp.r ∧ c = rp.c then rp.mag * Real.sin (wavePos * π * 2) else F r c
  ({ rp with iWave := rp.iWave - 1 }, (rp.iWave - 1) != 0, F2)

/-- Iterate `applyForce` on a ripple `n` times (against a zero force grid),
recording at each call the value written at the ripple's own cell and the
returned boolean. -/
noncomputable def Ripple.run : Ripple → ℕ → List (ℝ × Bool)
  | _, 0 => []
  | rp, Nat.succ n =>
    let res := rp.applyForce (fun _ _ => 0)
    (res.2.2 rp.r rp.c, res.2.1) :: Ripple.run res.1 n

/-- The pure part of `applyForce`: the mutated ripple and the returned
boolean (both are independent of the force grid passed in). -/
noncomputable def Ripple.step (rp : Ripple) : Ripple × Bool :=
  ((rp.applyForce (fun _ _ => 0)).1, (rp.applyForce (fun _ _ => 0)).2.1)

/-- The `WaveModel` object: grid dimensions, configuration fields used by
the stepping code, the five grid buffers, and the ripple storage.  The two
JS array objects holding ripples are a two-slot `heap`, with `rp` / `rp_`
the references `this.ripples` / `this.ripples_`. -/
structure WaveModel where
  rows : ℤ
  cols : ℤ
  isTorus : Bool
  damping : ℝ
  F : Grid
  V : Grid
  V_ : Grid
  M : Grid
  M_ : Grid
  heap : Bool → ℕ → Ripple
  rp : Bool
  rp_ : Bool
  nRipples : ℕ

/-- `getterFactory` from the source, for a cell grid `cells` and default
value `defValue`: on a torus it wraps both coordinates with `Utils.mod`;
otherwise out-of-range addresses return the default value. -/
noncomputable def getterFactory (isTorus : Bool) (rows cols : ℤ)
    (cells : Grid) (defValue : ℝ) : ℤ → ℤ → ℝ := fun r c =>
  if isTorus then
    cells (Utils.mod r rows) (Utils.mod c cols)
  else if r < 0 ∨ rows ≤ r ∨ c < 0 ∨ cols ≤ c then
    defValue
  else
    cells r c

open Real in
/-- `WaveModel.prototype.modelStep` from the source.  For every in-range
cell: dampen the velocity, accumulate the neighbour-weighted force into
`F`, add `F * FORCE_INFLUENCE` to the new velocity, set the new magnitude,
and clear `F`; finally swap `V ↔ V_` and `M ↔ M_`.  Neighbour magnitudes
are read through `getterFactory` over the pre-step `M` with default 0.
Cells outside the loop bounds are untouched (the JS arrays have no such
entries), so there the post-swap `V`/`M` expose the old buffer contents. -/
noncomputable def WaveModel.modelStep (s : WaveModel) : WaveModel :=
  let getM := getterFactory s.isTorus s.rows s.cols s.M 0
  let Ftot : Grid := fun r c =>
    s.F r c + (- s.M r c * (4 + 4 * π) +
      getM (r - 1) (c - 1) +
      getM r (c - 1) * π +
      getM (r + 1) (c - 1) +
      getM (r - 1) c * π +
      getM (r + 1) c * π +
      getM (r - 1) (c + 1) +
      getM r (c + 1) * π +
      getM (r + 1) (c + 1))
  let V2 : Grid := fun r c =>
    if 0 ≤ r ∧ r < s.rows ∧ 0 ≤ c ∧ c < s.cols then
      s.V r c * (1 - s.damping) + Ftot r c * FORCE_INFLUENCE
    else s.V_ r c
  let M2 : Grid := fun r c =>
    if 0 ≤ r ∧ r < s.rows ∧ 0 ≤ c ∧ c < s.cols then
      s.M r c + V2 r c
    else s.M_ r c
  let F2 : Grid := fun r c =>
    if 0 ≤ r ∧ r < s.rows ∧ 0 ≤ c ∧ c < s.cols then 0 else s.F r c
  { s with F := F2, V := V2, V_ := s.V, M := M2, M_ := s.M }

/-- Write value `v` at index `i` of the heap array named `a`. -/
def writeArr (h : Bool → ℕ → Ripple) (a : Bool) (i : ℕ) (v : Ripple) :
    Bool → ℕ → Ripple :=
  fun b => if b = a then Function.update (h a) i v else h b

/-- The spawning loop of `genForces`: append the newly created ripples
(`ripples[nRipples++] = new Ripple(this)`) to array `a` starting at
index `n`. -/
def spawnInto (h : Bool → ℕ → Ripple) (a : Bool) :
    ℕ → List Ripple → Bool → ℕ → Ripple
  | _, [] => h
  | n, x :: xs => spawnInto (writeArr h a n x) a (n + 1) xs

/-- One iteration of the compaction loop of `genForces`: read
`ripples[i]` (array `p`), call `applyForce` (which mutates the ripple
object in place and updates the force grid), and if it returned true copy
the reference into `ripples_[j++]` (array `q`).  When `p = q` the two
arrays are the same object and the writes land in one array, exactly as
after the source's reference swap. -/
noncomputable def gfStep (p q : Bool)
    (st : (Bool → ℕ → Ripple) × Grid × ℕ) (i : ℕ) :
    (Bool → ℕ → Ripple) × Grid × ℕ :=
  let h := st.1
  let F := st.2.1
  let j := st.2.2
  let res := (h p i).applyForce F
  let h1 := writeArr h p i res.1
  if res.2.1 then (writeArr h1 q j res.1, res.2.2, j + 1) else (h1, res.2.2, j)

/-- `WaveModel.prototype.genForces` from the source.  New ripples are
created by `Math.random`; they are modelled by the explicit parameter
`newRs` (the list of ripples the spawning loop creates this call).  After
the compaction loop the source executes `this.ripples = ripples_;
this.ripples_ = this.ripples;` — so both references end up naming the
array that was `ripples_`. -/
noncomputable def WaveModel.genForces (m : WaveModel) (newRs : List Ripple) :
    WaveModel :=
  let n := m.nRipples + newRs.length
  let h0 := spawnInto m.heap m.rp m.nRipples newRs
  let res := (List.range n).foldl (gfStep m.rp m.rp_) (h0, m.F, 0)
  { m with heap := res.1, F := res.2.1,
           rp := m.rp_, rp_ := m.rp_, nRipples := res.2.2 }

/-- `WaveModel.prototype.insertRipple`:
`this.ripples[this.nRipples++] = ripple;`. -/
def WaveModel.insertRipple (m : WaveModel) (rp : Ripple) : WaveModel :=
  { m with heap := writeArr m.heap m.rp m.nRipples rp,
           nRipples := m.nRipples + 1 }

/-- The active ripple set: the first `nRipples` entries of `this.ripples`. -/
def WaveModel.activeList (m : WaveModel) : List Ripple :=
  (List.range m.nRipples).map (m.heap m.rp)

/-- The ripples of the initial segment of length `n` of `init` that
survive one `applyForce` pass (in order, already mutated by the pass). -/
noncomputable def survivors (init : ℕ → Ripple) (n : ℕ) : List Ripple :=
  (((List.range n).map fun i => Ripple.step (init i)).filter Prod.snd).map
    Prod.fst

/-! ## Helper lemmas -/

/-- An all-zero force grid, used for concrete instances. -/
def zeroGrid : Grid := fun _ _ => 0

/-- A concrete torus grid distinguishing row `rows - 1 = 4` from row `0`. -/
noncomputable def cellsC1 : Grid := fun r _ => if r = 4 then 1 else 0

/-! ## Claims -/

/-- Claim C1 (code bug).  `Utils.mod` is NOT true mathematical modulo: the
negative branch reduces by `n` instead of `m` (`((n % m) + m) % n`), so
`Utils.mod (-1) 5 = 0` while true modulo gives `4`; consequently on a
5-row torus the accessor resolves `get(-1, c)` to row `0`, not row
`rows - 1 = 4`, and the wrapped index can even leave `[0, m)`
(`Utils.mod (-10) 5 = 5`). -/
theorem c1_torus_mod_bug :
    Utils.mod (-1) 5 = 0 ∧ (-1 : ℤ) % 5 = 4 ∧ Utils.mod (-10) 5 = 5 ∧
    getterFactory true 5 5 cellsC1 0 (-1) 2 = 0 ∧ cellsC1 4 2 = 1 := by
  have h1 : Utils.mod (-1) 5 = 0 := by decide
  have h2 : Utils.mod 2 5 = 2 := by decide
  refine ⟨h1, by decide, by decide, ?_, by norm_num [cellsC1]⟩
  simp [getterFactory, h1, h2, cellsC1]

/-- Claim C9.  In non-torus mode the accessor returns the default value for
every out-of-range address (in particular at `(-1, c)` and `(rows, c)`),
and the stored cell value for every in-range address.  It is a pure total
function of the coordinates (it is defined for all of `ℤ × ℤ` and mutates
nothing). -/
theorem c9_nontorus_boundary (rows cols : ℤ) (cells : Grid) (defV : ℝ)
    (r c : ℤ) :
    (r < 0 ∨ rows ≤ r ∨ c < 0 ∨ cols ≤ c →
      getterFactory false rows cols cells defV r c = defV)
    ∧ (0 ≤ r → r < rows → 0 ≤ c → c < cols →
      getterFactory false rows cols cells defV r c = cells r c)
    ∧ (getterFactory false rows cols cells defV (-1) c = defV)
    ∧ (getterFactory false rows cols cells defV rows c = defV) := by
  refine ⟨fun h => ?_, fun h1 h2 h3 h4 => ?_, ?_, ?_⟩
  · simp only [getterFactory, Bool.false_eq_true, if_false]
    exact if_pos h
  · simp only [getterFactory, Bool.false_eq_true, if_false]
    rw [if_neg]
    push_neg
    exact ⟨le_of_not_lt (by omega), by omega, by omega, by omega⟩
  · simp only [getterFactory, Bool.false_eq_true, if_false]
    exact if_pos (Or.inl (by norm_num))
  · simp only [getterFactory, Bool.false_eq_true, if_false]
    exact if_pos (Or.inr (Or.inl le_rfl))

/-- A concrete 2-by-2 grid used as the C9 witness instance. -/
noncomputable def cellsC9 : Grid := fun r c => (r : ℝ) + 2 * c

/-- Witness for C9 at a concrete grid: a 2-by-2 grid with
`cells r c = r + 2 c`, default `7`. -/
theorem c9_nontorus_boundary_witness :
    getterFactory false 2 2 cellsC9 7 (-1) 0 = 7
    ∧ getterFactory false 2 2 cellsC9 7 1 1 = cellsC9 1 1 :=
  ⟨(c9_nontorus_boundary 2 2 cellsC9 7 (-1) 0).1 (Or.inl (by norm_num)),
    (c9_nontorus_boundary 2 2 cellsC9 7 1 1).2.1
      (by norm_num) (by norm_num) (by norm_num) (by norm_num)⟩

/-- Claim C10.  The first `applyForce` call of a freshly initialised ripple
(`iWave = wavelength`) writes exactly zero to its cell (`progress = 0` and
`sin 0 = 0`) and leaves every other cell of the force grid unchanged. -/
theorem c10_first_force_zero (w r c r2 c2 : ℤ) (m : ℝ) (F : Grid)
    (hw : 1 ≤ w) :
    ((Ripple.fresh w r c m).applyForce F).2.2 r2 c2 =
      if r2 = r ∧ c2 = c then 0 else F r2 c2 := by
  by_cases h : r2 = r ∧ c2 = c <;>
    simp [Ripple.applyForce, Ripple.fresh, h, Real.sin_zero]

/-- Witness for C10: a fresh wavelength-3 ripple at the origin writes 0
there on its first call. -/
theorem c10_first_force_zero_witness :
    1 ≤ (3 : ℤ) ∧
      ((Ripple.fresh 3 0 0 2).applyForce zeroGrid).2.2 0 0 =
        if (0 : ℤ) = 0 ∧ (0 : ℤ) = 0 then 0 else zeroGrid 0 0 :=
  ⟨by norm_num, c10_first_force_zero 3 0 0 0 0 2 zeroGrid (by norm_num)⟩

/-- Claim C8.  `applyForce` overwrites (assigns, does not accumulate into)
the force value at its cell: when two ripples target the same cell, the
force grid after both calls is exactly the grid the second call alone
would have produced, and the value at the shared cell is the second
ripple's contribution `mag * sin(progress * 2π)` — the first ripple's
write is discarded. -/
theorem c8_force_overwrites (rp1 rp2 : Ripple) (F : Grid)
    (hr : rp1.r = rp2.r) (hc : rp1.c = rp2.c) :
    (rp2.applyForce (rp1.applyForce F).2.2).2.2 = (rp2.applyForce F).2.2
    ∧ (rp2.applyForce (rp1.applyForce F).2.2).2.2 rp2.r rp2.c
      = rp2.mag * Real.sin ((((rp2.wavelength : ℝ) - (rp2.iWave : ℝ)) /
          (rp2.wavelength : ℝ)) * Real.pi * 2) := by
  constructor
  · funext a b
    by_cases h : a = rp2.r ∧ b = rp2.c <;>
      simp [Ripple.applyForce, h, hr, hc]
  · simp [Ripple.applyForce]

/-- Witness for C8: two concrete ripples on cell (1,1); the final force
grid equals the one produced by the second ripple alone. -/
theorem c8_force_overwrites_witness :
    ((⟨7, 6, 1, 1, 2⟩ : Ripple).applyForce
        ((⟨5, 5, 1, 1, 3⟩ : Ripple).applyForce zeroGrid).2.2).2.2 =
      ((⟨7, 6, 1, 1, 2⟩ : Ripple).applyForce zeroGrid).2.2
    ∧ ((⟨7, 6, 1, 1, 2⟩ : Ripple).applyForce
        ((⟨5, 5, 1, 1, 3⟩ : Ripple).applyForce zeroGrid).2.2).2.2
        (⟨7, 6, 1, 1, 2⟩ : Ripple).r (⟨7, 6, 1, 1, 2⟩ : Ripple).c
      = (⟨7, 6, 1, 1, 2⟩ : Ripple).mag *
          Real.sin (((((⟨7, 6, 1, 1, 2⟩ : Ripple).wavelength : ℝ) -
            ((⟨7, 6, 1, 1, 2⟩ : Ripple).iWave : ℝ)) /
            ((⟨7, 6, 1, 1, 2⟩ : Ripple).wavelength : ℝ)) * Real.pi * 2) :=
  c8_force_overwrites ⟨5, 5, 1, 1, 3⟩ ⟨7, 6, 1, 1, 2⟩ zeroGrid rfl rfl

/-- Unfolding lemma: one `applyForce` call contributes the boolean
`(iWave - 1) ≠ 0` and continues with the decremented counter. -/
theorem Ripple.run_snd_succ (wl j r c : ℤ) (m : ℝ) (n : ℕ) :
    (Ripple.run ⟨wl, j, r, c, m⟩ (n + 1)).map Prod.snd
      = ((j - 1) != 0) ::
        (Ripple.run ⟨wl, j - 1, r, c, m⟩ n).map Prod.snd := rfl

/-- The boolean results of running a ripple whose remaining-ticks counter
is `i ≥ 1` for `i` calls: `i - 1` times `true`, then one `false`
(the wavelength field and the position are irrelevant to the booleans). -/
theorem Ripple.run_bools (wl r c : ℤ) (m : ℝ) :
    ∀ i : ℕ, 1 ≤ i →
      (Ripple.run ⟨wl, (i : ℤ), r, c, m⟩ i).map Prod.snd
        = List.replicate (i - 1) true ++ [false] := by
  intro i
  induction i with
  | zero => intro h; exact absurd h (by norm_num)
  | succ n ih =>
    intro _
    rw [Ripple.run_snd_succ]
    have hc : ((n + 1 : ℕ) : ℤ) - 1 = ((n : ℕ) : ℤ) := by push_cast; ring
    rw [hc]
    cases n with
    | zero => simp [Ripple.run]
    | succ k =>
      have hb : (((k + 1 : ℕ) : ℤ) != 0) = true := by
        simp only [bne_iff_ne, ne_eq]
        intro h
        omega
      rw [hb, ih (by omega)]
      simp [List.replicate_succ]

/-- Claim C5.  A ripple with resolved wavelength `w ≥ 1` (so
`iWave = wavelength = w` after `init`) returns `true` from `applyForce`
for exactly the first `w - 1` calls and `false` on the `w`-th; and
`applyForce` decrements the remaining-ticks counter and returns
`remaining-ticks ≠ 0`. -/
theorem c5_ripple_lifetime (w : ℕ) (hw : 1 ≤ w) (r c : ℤ) (m : ℝ)
    (rp : Ripple) (F : Grid) :
    (Ripple.run (Ripple.fresh (w : ℤ) r c m) w).map Prod.snd
      = List.replicate (w - 1) true ++ [false]
    ∧ (rp.applyForce F).1.iWave = rp.iWave - 1
    ∧ (rp.applyForce F).2.1 = ((rp.iWave - 1) != 0) :=
  ⟨Ripple.run_bools (w : ℤ) r c m w hw, rfl, rfl⟩

/-- Witness for C5 at `wavelength = 5`: active for exactly 4 calls and
inactive on the 5th. -/
theorem c5_ripple_lifetime_witness :
    (Ripple.run (Ripple.fresh ((5 : ℕ) : ℤ) 0 0 1) 5).map Prod.snd
      = List.replicate 4 true ++ [false]
    ∧ ((⟨3, 2, 0, 0, 1⟩ : Ripple).applyForce zeroGrid).1.iWave
        = (⟨3, 2, 0, 0, 1⟩ : Ripple).iWave - 1
    ∧ ((⟨3, 2, 0, 0, 1⟩ : Ripple).applyForce zeroGrid).2.1
        = (((⟨3, 2, 0, 0, 1⟩ : Ripple).iWave - 1) != 0) :=
  c5_ripple_lifetime 5 (by norm_num) 0 0 1 ⟨3, 2, 0, 0, 1⟩ zeroGrid

/-- Unfolding lemma: one `applyForce` call writes
`mag * sin(((wavelength - iWave)/wavelength) * π * 2)` at the ripple's
cell and continues with the decremented counter. -/
theorem Ripple.run_fst_succ (wl j r c : ℤ) (m : ℝ) (n : ℕ) :
    (Ripple.run ⟨wl, j, r, c, m⟩ (n + 1)).map Prod.fst
      = (m * Real.sin ((((wl : ℝ) - (j : ℝ)) / (wl : ℝ)) * Real.pi * 2)) ::
        (Ripple.run ⟨wl, j - 1, r, c, m⟩ n).map Prod.fst := by
  simp [Ripple.run, Ripple.applyForce]

/-- The sequence of forces a ripple writes over `n` consecutive
`applyForce` calls, starting from remaining-ticks counter `j`. -/
theorem Ripple.run_forces (wl r c : ℤ) (m : ℝ) :
    ∀ (n : ℕ) (j : ℤ),
      (Ripple.run ⟨wl, j, r, c, m⟩ n).map Prod.fst
        = (List.range n).map (fun k : ℕ =>
            m * Real.sin ((((wl : ℝ) - ((j : ℝ) - (k : ℝ))) / (wl : ℝ)) *
              Real.pi * 2)) := by
  intro n
  induction n with
  | zero => intro j; simp [Ripple.run]
  | succ n ih =>
    intro j
    rw [Ripple.run_fst_succ, List.range_succ_eq_map, List.map_cons,
      List.map_map, ih (j - 1)]
    congr 1
    · norm_num
    · refine List.map_congr_left fun k _ => ?_
      simp only [Function.comp_apply]
      push_cast
      ring_nf

/-- Bridge between list sums over `List.range` and finset sums. -/
theorem list_range_map_sum (f : ℕ → ℝ) :
    ∀ n : ℕ, ((List.range n).map f).sum = ∑ k ∈ Finset.range n, f k := by
  intro n
  induction n with
  | zero => simp
  | succ n ih =>
    rw [List.range_succ, List.map_append, List.sum_append,
      Finset.sum_range_succ, ih]
    simp

/-- The sine values at `n` equally spaced points of a full period sum to
zero (imaginary part of the vanishing sum of the `n`-th roots of unity;
for `n = 1` the single term is `sin 0 = 0`). -/
theorem sin_sum_period (n : ℕ) (hn : 1 ≤ n) :
    ∑ k ∈ Finset.range n, Real.sin (((k : ℝ) / (n : ℝ)) * Real.pi * 2) = 0 := by
  rcases eq_or_lt_of_le hn with h1 | h2
  · rw [← h1]
    simp
  · have h0 : n ≠ 0 := by omega
    have hprim := Complex.isPrimitiveRoot_exp n h0
    have hsum := hprim.geom_sum_eq_zero h2
    have hterm : ∀ k : ℕ,
        (Complex.exp (2 * (Real.pi : ℂ) * Complex.I / (n : ℂ)) ^ k).im
          = Real.sin (((k : ℝ) / (n : ℝ)) * Real.pi * 2) := by
      intro k
      rw [← Complex.exp_nat_mul]
      have harg : (k : ℂ) * (2 * (Real.pi : ℂ) * Complex.I / (n : ℂ))
          = ((((k : ℝ) / (n : ℝ)) * Real.pi * 2 : ℝ) : ℂ) * Complex.I := by
        push_cast
        ring
      rw [harg, Complex.exp_ofReal_mul_I_im]
    calc ∑ k ∈ Finset.range n, Real.sin (((k : ℝ) / (n : ℝ)) * Real.pi * 2)
        = ∑ k ∈ Finset.range n,
            (Complex.exp (2 * (Real.pi : ℂ) * Complex.I / (n : ℂ)) ^ k).im := by
          exact Finset.sum_congr rfl fun k _ => (hterm k).symm
      _ = (∑ k ∈ Finset.range n,
            Complex.exp (2 * (Real.pi : ℂ) * Complex.I / (n : ℂ)) ^ k).im := by
          rw [Complex.im_sum]
      _ = 0 := by rw [hsum]; rfl

/-- Claim C7.  The total force a fresh ripple of resolved wavelength
`w ≥ 1` and peak magnitude `m` writes over its full lifetime of `w`
`applyForce` calls is exactly zero (one full sine period). -/
theorem c7_lifetime_impulse_zero (w : ℕ) (hw : 1 ≤ w) (r c : ℤ) (m : ℝ) :
    ((Ripple.run (Ripple.fresh (w : ℤ) r c m) w).map Prod.fst).sum = 0 := by
  have hrun := Ripple.run_forces (w : ℤ) r c m w (w : ℤ)
  rw [Ripple.fresh, hrun, list_range_map_sum]
  have hterm : ∀ k ∈ Finset.range w,
      m * Real.sin (((((w : ℤ) : ℝ) - ((((w : ℤ) : ℝ)) - (k : ℝ))) /
          ((w : ℤ) : ℝ)) * Real.pi * 2)
        = m * Real.sin (((k : ℝ) / (w : ℝ)) * Real.pi * 2) := by
    intro k _
    congr 2
    push_cast
    ring
  rw [Finset.sum_congr rfl hterm, ← Finset.mul_sum, sin_sum_period w hw,
    mul_zero]

/-- Witness for C7 at `w = 4`, magnitude 10, cell (2,2). -/
theorem c7_lifetime_impulse_zero_witness :
    1 ≤ 4 ∧
      ((Ripple.run (Ripple.fresh ((4 : ℕ) : ℤ) 2 2 10) 4).map Prod.fst).sum
        = 0 :=
  ⟨by norm_num, c7_lifetime_impulse_zero 4 (by norm_num) 2 2 10⟩

/-- The boundary accessor over an everywhere-zero grid with default 0
returns 0 at every address, in both torus and bounded mode. -/
theorem getterFactory_zero (t : Bool) (rows cols : ℤ) (cells : Grid)
    (hc : ∀ a b, cells a b = 0) (r c : ℤ) :
    getterFactory t rows cols cells 0 r c = 0 := by
  unfold getterFactory
  cases t <;> simp [hc]

/-- One `modelStep` maps a model whose five buffers are all zero to a model
whose five buffers are all zero. -/
theorem WaveModel.modelStep_zero (s : WaveModel)
    (hF : ∀ r c, s.F r c = 0) (hV : ∀ r c, s.V r c = 0)
    (hV2 : ∀ r c, s.V_ r c = 0) (hM : ∀ r c, s.M r c = 0)
    (hM2 : ∀ r c, s.M_ r c = 0) :
    (∀ r c, s.modelStep.F r c = 0) ∧ (∀ r c, s.modelStep.V r c = 0)
    ∧ (∀ r c, s.modelStep.V_ r c = 0) ∧ (∀ r c, s.modelStep.M r c = 0)
    ∧ (∀ r c, s.modelStep.M_ r c = 0) := by
  have hg : ∀ a b, getterFactory s.isTorus s.rows s.cols s.M 0 a b = 0 :=
    fun a b => getterFactory_zero s.isTorus s.rows s.cols s.M hM a b
  refine ⟨?_, ?_, ?_, ?_, ?_⟩ <;> intro r c <;>
    simp only [WaveModel.modelStep] <;>
    (try split_ifs) <;>
    simp [hF, hV, hV2, hM, hM2, hg]

/-- Iterating `modelStep` preserves the all-zero state of the five
buffers. -/
theorem WaveModel.modelStep_iter_zero (s : WaveModel)
    (hF : ∀ r c, s.F r c = 0) (hV : ∀ r c, s.V r c = 0)
    (hV2 : ∀ r c, s.V_ r c = 0) (hM : ∀ r c, s.M r c = 0)
    (hM2 : ∀ r c, s.M_ r c = 0) :
    ∀ n : ℕ,
      (∀ r c, (WaveModel.modelStep^[n] s).F r c = 0)
      ∧ (∀ r c, (WaveModel.modelStep^[n] s).V r c = 0)
      ∧ (∀ r c, (WaveModel.modelStep^[n] s).V_ r c = 0)
      ∧ (∀ r c, (WaveModel.modelStep^[n] s).M r c = 0)
      ∧ (∀ r c, (WaveModel.modelStep^[n] s).M_ r c = 0) := by
  intro n
  induction n with
  | zero => exact ⟨hF, hV, hV2, hM, hM2⟩
  | succ n ih =>
    rw [Function.iterate_succ_apply']
    exact WaveModel.modelStep_zero _ ih.1 ih.2.1 ih.2.2.1 ih.2.2.2.1
      ih.2.2.2.2

/-- Claim C2.  A model whose force, velocity and magnitude buffers are all
zero stays at exactly zero magnitude (and zero force and velocity) after
any number of `modelStep` calls.  (`modelStep` never reads the ripple
state, so the no-active-ripples hypothesis of the claim is not even
needed.) -/
theorem c2_zero_steady_state (m : WaveModel)
    (hF : ∀ r c, m.F r c = 0) (hV : ∀ r c, m.V r c = 0)
    (hV2 : ∀ r c, m.V_ r c = 0) (hM : ∀ r c, m.M r c = 0)
    (hM2 : ∀ r c, m.M_ r c = 0) (n : ℕ) (r c : ℤ) :
    (WaveModel.modelStep^[n] m).M r c = 0
    ∧ (WaveModel.modelStep^[n] m).F r c = 0
    ∧ (WaveModel.modelStep^[n] m).V r c = 0 := by
  have h := WaveModel.modelStep_iter_zero m hF hV hV2 hM hM2 n
  exact ⟨h.2.2.2.1 r c, h.1 r c, h.2.1 r c⟩

/-- A concrete all-zero 3-by-3 model with no ripples. -/
noncomputable def zeroModel : WaveModel :=
  { rows := 3, cols := 3, isTorus := false, damping := 0.05,
    F := zeroGrid, V := zeroGrid, V_ := zeroGrid, M := zeroGrid,
    M_ := zeroGrid, heap := fun _ _ => default, rp := false, rp_ := true,
    nRipples := 0 }

/-- Witness for C2: the all-zero 3-by-3 model is still exactly zero at
cell (1,1) after 3 steps. -/
theorem c2_zero_steady_state_witness :
    (WaveModel.modelStep^[3] zeroModel).M 1 1 = 0
    ∧ (WaveModel.modelStep^[3] zeroModel).F 1 1 = 0
    ∧ (WaveModel.modelStep^[3] zeroModel).V 1 1 = 0 :=
  c2_zero_steady_state zeroModel (fun _ _ => rfl) (fun _ _ => rfl)
    (fun _ _ => rfl) (fun _ _ => rfl) (fun _ _ => rfl) 3 1 1

/-- An all-one grid, used for concrete counterexamples. -/
noncomputable def oneGrid : Grid := fun _ _ => 1

/-- A 1-by-1 model with damping 1, no ripples, magnitude 1 and velocity 1
everywhere: the state refuting claim C4 as stated. -/
noncomputable def dampingOneModel : WaveModel :=
  { rows := 1, cols := 1, isTorus := false, damping := 1,
    F := zeroGrid, V := oneGrid, V_ := zeroGrid, M := oneGrid,
    M_ := zeroGrid, heap := fun _ _ => default, rp := false, rp_ := true,
    nRipples := 0 }

/-- Counterexample to claim C4 as stated: with damping 1 and no ripples
but a nonzero magnitude, the velocity on the next tick is NOT zero — the
damping term vanishes but the magnitude-derived force contributes
`-(4 + 4π)/10 ≠ 0`. -/
theorem c4_damping_one_counterexample :
    dampingOneModel.modelStep.V 0 0 ≠ 0 := by
  have hpi := Real.pi_pos
  simp only [WaveModel.modelStep, dampingOneModel, getterFactory, zeroGrid,
    oneGrid, FORCE_INFLUENCE]
  norm_num
  intro h
  nlinarith

/-- Claim C4, amended.  With damping 1 and no ripples, the damping term
removes the whole previous velocity in one step: if additionally the force
buffer and all magnitudes are zero (so the force term of the update also
vanishes), every cell's next-tick velocity is exactly zero, whatever the
previous velocities were — no condition on either velocity buffer, for
every cell of the grid. -/
theorem c4_full_damping (m : WaveModel) (hd : m.damping = 1)
    (hF : ∀ r c, m.F r c = 0) (hM : ∀ r c, m.M r c = 0)
    (r c : ℤ) (hr0 : 0 ≤ r) (hr1 : r < m.rows) (hc0 : 0 ≤ c)
    (hc1 : c < m.cols) :
    m.modelStep.V r c = 0 := by
  have hg : ∀ a b, getterFactory m.isTorus m.rows m.cols m.M 0 a b = 0 :=
    fun a b => getterFactory_zero m.isTorus m.rows m.cols m.M hM a b
  simp only [WaveModel.modelStep]
  rw [if_pos ⟨hr0, hr1, hc0, hc1⟩]
  simp [hd, hF, hM, hg]

/-- A 1-by-1 model with damping 1, zero force/magnitude and velocity 5
everywhere (including in the spare velocity buffer, which holds 3). -/
noncomputable def fullDampingModel : WaveModel :=
  { rows := 1, cols := 1, isTorus := false, damping := 1,
    F := zeroGrid, V := fun _ _ => 5, V_ := fun _ _ => 3, M := zeroGrid,
    M_ := zeroGrid, heap := fun _ _ => default, rp := false, rp_ := true,
    nRipples := 0 }

/-- Witness for the amended C4: velocity 5 is annihilated in one step,
with no assumption on the spare velocity buffer. -/
theorem c4_full_damping_witness : fullDampingModel.modelStep.V 0 0 = 0 :=
  c4_full_damping fullDampingModel rfl (fun _ _ => rfl) (fun _ _ => rfl)
    0 0 (by norm_num) (by norm_num [fullDampingModel]) (by norm_num)
    (by norm_num [fullDampingModel])

/-- The all-zero 5-by-5 non-torus model with damping 0 of the end-to-end
scenario of claim C3. -/
noncomputable def c3Base : WaveModel :=
  { rows := 5, cols := 5, isTorus := false, damping := 0,
    F := zeroGrid, V := zeroGrid, V_ := zeroGrid, M := zeroGrid,
    M_ := zeroGrid, heap := fun _ _ => default, rp := false, rp_ := true,
    nRipples := 0 }

/-- The scenario model after inserting one fresh ripple at cell (2,2)
with wavelength 4 and magnitude 10. -/
noncomputable def c3Model : WaveModel :=
  c3Base.insertRipple (Ripple.fresh 4 2 2 10)

/-- After the `genForces` of the first tick, the force buffer is still
identically zero: the ripple's first `applyForce` writes
`10 * sin(0) = 0`. -/
theorem c3_genForces_force_zero :
    ∀ a b, (c3Model.genForces []).F a b = 0 := by
  intro a b
  have hfold : (c3Model.genForces []).F
      = ((c3Model.heap c3Model.rp 0).applyForce c3Model.F).2.2 := by
    show ((List.range (c3Model.nRipples +
          List.length ([] : List Ripple))).foldl
        (gfStep c3Model.rp c3Model.rp_)
        (spawnInto c3Model.heap c3Model.rp c3Model.nRipples
          ([] : List Ripple), c3Model.F, 0)).2.1 = _
    have hn : c3Model.nRipples + List.length ([] : List Ripple) = 1 := rfl
    rw [hn, show List.range 1 = [0] from rfl, List.foldl_cons,
      List.foldl_nil, spawnInto]
    unfold gfStep
    dsimp only
    split_ifs <;> rfl
  have hrp : c3Model.heap c3Model.rp 0 = Ripple.fresh 4 2 2 10 := by
    show writeArr c3Base.heap c3Base.rp c3Base.nRipples
        (Ripple.fresh 4 2 2 10) c3Base.rp 0 = _
    simp [writeArr, c3Base]
  rw [hfold, hrp]
  by_cases h : a = 2 ∧ b = 2 <;>
    simp [Ripple.applyForce, Ripple.fresh, h, c3Model, c3Base,
      WaveModel.insertRipple, zeroGrid]

/-- Counterexample to claim C3 as stated: in the C3 scenario the magnitude
at cell (2,2) after one generate-forces-plus-advance tick is exactly ZERO,
not nonzero — a freshly inserted ripple writes `sin(0) = 0` on its first
`applyForce`, so nothing has disturbed the grid yet. -/
theorem c3_one_tick_counterexample :
    ((c3Model.genForces []).modelStep).M 2 2 = 0 :=
  (WaveModel.modelStep_zero (c3Model.genForces []) c3_genForces_force_zero
    (fun _ _ => rfl) (fun _ _ => rfl) (fun _ _ => rfl)
    (fun _ _ => rfl)).2.2.2.1 2 2

/-- Claim C3, amended.  In the C3 scenario (5-by-5 non-torus grid, damping
0, all-zero initial state, one fresh ripple at (2,2) with wavelength 4 and
magnitude 10), after one generate-forces-plus-advance tick EVERY cell's
magnitude is exactly zero — in particular the magnitude at (2,2) is
exactly zero (not nonzero), and the cells adjacent to (2,2) and all
farther cells are exactly zero as the claim stated. -/
theorem c3_one_tick_all_zero (a b : ℤ) :
    ((c3Model.genForces []).modelStep).M a b = 0 :=
  (WaveModel.modelStep_zero (c3Model.genForces []) c3_genForces_force_zero
    (fun _ _ => rfl) (fun _ _ => rfl) (fun _ _ => rfl)
    (fun _ _ => rfl)).2.2.2.1 a b

/-- Reading the slot just written. -/
theorem writeArr_self (h : Bool → ℕ → Ripple) (a : Bool) (i : ℕ)
    (v : Ripple) : writeArr h a i v a i = v := by
  simp [writeArr]

/-- Reading any slot with a different index is unaffected, in either
array. -/
theorem writeArr_ne_idx (h : Bool → ℕ → Ripple) (a : Bool) (i : ℕ)
    (v : Ripple) (b : Bool) (k : ℕ) (hk : k ≠ i) :
    writeArr h a i v b k = h b k := by
  unfold writeArr
  split_ifs with hba
  · subst hba
    exact Function.update_noteq hk v (h b)
  · rfl

/-- The ripple and boolean outputs of `applyForce` do not depend on the
force grid. -/
theorem Ripple.applyForce_fst (rp : Ripple) (F : Grid) :
    (rp.applyForce F).1 = (Ripple.step rp).1 := rfl

/-- The boolean output of `applyForce` does not depend on the force
grid. -/
theorem Ripple.applyForce_bool (rp : Ripple) (F : Grid) :
    (rp.applyForce F).2.1 = (Ripple.step rp).2 := rfl

/-- Unfolding `survivors` by one element. -/
theorem survivors_succ (f : ℕ → Ripple) (n : ℕ) :
    survivors f (n + 1) = survivors f n ++
      (if (Ripple.step (f n)).2 then [(Ripple.step (f n)).1] else []) := by
  unfold survivors
  rw [List.range_succ, List.map_append, List.filter_append, List.map_append]
  congr 1
  by_cases h : (Ripple.step (f n)).2 <;> simp [List.filter, h]

/-- The invariant preserved by one iteration of the compaction loop: the
next-slot counter stays at most the read index, slots of the read array at
or beyond the read index are untouched, and the prefix written so far is
exactly the survivors of the initial array — whether or not the read and
write arrays are the same object. -/
theorem gfStep_spec (p q : Bool) (h0 : Bool → ℕ → Ripple) (n : ℕ)
    (st : (Bool → ℕ → Ripple) × Grid × ℕ)
    (hj : st.2.2 ≤ n)
    (hp : ∀ k, n ≤ k → st.1 p k = h0 p k)
    (hq : (List.range st.2.2).map (st.1 q) = survivors (h0 p) n) :
    (gfStep p q st n).2.2 ≤ n + 1
    ∧ (∀ k, n + 1 ≤ k → (gfStep p q st n).1 p k = h0 p k)
    ∧ (List.range (gfStep p q st n).2.2).map ((gfStep p q st n).1 q)
        = survivors (h0 p) (n + 1) := by
  have hread : st.1 p n = h0 p n := hp n le_rfl
  unfold gfStep
  dsimp only
  by_cases hact : ((st.1 p n).applyForce st.2.1).2.1 = true
  · rw [if_pos hact]
    dsimp only
    have hstep2 : (Ripple.step (h0 p n)).2 = true := by
      rw [← hread]
      exact hact
    have hstep1 : (Ripple.step (h0 p n)).1
        = ((st.1 p n).applyForce st.2.1).1 := by
      rw [← hread]
      rfl
    refine ⟨by omega, ?_, ?_⟩
    · intro k hk
      rw [writeArr_ne_idx _ _ _ _ _ _ (by omega),
        writeArr_ne_idx _ _ _ _ _ _ (by omega)]
      exact hp k (by omega)
    · rw [List.range_succ, List.map_append, survivors_succ, if_pos hstep2]
      have hmap : (List.range st.2.2).map
          ((writeArr (writeArr st.1 p n ((st.1 p n).applyForce st.2.1).1) q
            st.2.2 ((st.1 p n).applyForce st.2.1).1) q)
          = (List.range st.2.2).map (st.1 q) := by
        refine List.map_congr_left fun k hk => ?_
        have hk1 : k < st.2.2 := List.mem_range.mp hk
        rw [writeArr_ne_idx _ _ _ _ _ _ (by omega),
          writeArr_ne_idx _ _ _ _ _ _ (by omega)]
      rw [hmap, hq, hstep1]
      simp only [List.map_cons, List.map_nil]
      rw [writeArr_self]
  · rw [if_neg hact]
    dsimp only
    have hstep2 : (Ripple.step (h0 p n)).2 = false := by
      rw [← hread]
      exact Bool.not_eq_true _ ▸ Bool.of_not_eq_true hact
    refine ⟨by omega, ?_, ?_⟩
    · intro k hk
      rw [writeArr_ne_idx _ _ _ _ _ _ (by omega)]
      exact hp k (by omega)
    · rw [survivors_succ, hstep2]
      have hmap : (List.range st.2.2).map
          ((writeArr st.1 p n ((st.1 p n).applyForce st.2.1).1) q)
          = (List.range st.2.2).map (st.1 q) := by
        refine List.map_congr_left fun k hk => ?_
        have hk1 : k < st.2.2 := List.mem_range.mp hk
        rw [writeArr_ne_idx _ _ _ _ _ _ (by omega)]
      rw [hmap, hq]
      simp

/-- The compaction loop of `genForces`, run over the whole initial
segment: the counter is at most `n` and the written prefix is exactly the
survivor list of the initial array contents. -/
theorem gfLoop_spec (p q : Bool) (h0 : Bool → ℕ → Ripple) (F0 : Grid) :
    ∀ n : ℕ,
      ((List.range n).foldl (gfStep p q) (h0, F0, 0)).2.2 ≤ n
      ∧ (∀ k, n ≤ k →
          ((List.range n).foldl (gfStep p q) (h0, F0, 0)).1 p k = h0 p k)
      ∧ (List.range
            (((List.range n).foldl (gfStep p q) (h0, F0, 0)).2.2)).map
            ((((List.range n).foldl (gfStep p q) (h0, F0, 0)).1) q)
          = survivors (h0 p) n := by
  intro n
  induction n with
  | zero => exact ⟨le_rfl, fun k _ => rfl, by simp [survivors]⟩
  | succ n ih =>
    rw [List.range_succ, List.foldl_append, List.foldl_cons, List.foldl_nil]
    exact gfStep_spec p q h0 n _ ih.1 ih.2.1 ih.2.2

/-- Claim C6.  After any `genForces` call the active ripple set (the first
`nRipples` entries of `this.ripples`) is exactly the list of those ripples
of the pre-loop array — prior ripples followed by the ripples newly
spawned during the call — whose `applyForce` returned true, in order and
each exactly once.  The statement covers both the first call (distinct
read/write arrays) and all later calls (where, after the source's
reference swap, `this.ripples` and `this.ripples_` are the same array and
the compaction runs in place): the read array name `m.rp` and write array
name `m.rp_` are arbitrary and may be equal. -/
theorem c6_compaction_exact (m : WaveModel) (newRs : List Ripple) :
    (m.genForces newRs).activeList
      = survivors (spawnInto m.heap m.rp m.nRipples newRs m.rp)
          (m.nRipples + newRs.length) :=
  (gfLoop_spec m.rp m.rp_ (spawnInto m.heap m.rp m.nRipples newRs) m.F
    (m.nRipples + newRs.length)).2.2

/-- The spawning loop leaves the prior entries (indices below `n`) of the
target array unchanged and places the `i`-th newly spawned ripple at index
`n + i`: the initial segment the compaction loop then reads is exactly
"prior ripples followed by the newly spawned ripples". -/
theorem spawnInto_get (a : Bool) :
    ∀ (xs : List Ripple) (h : Bool → ℕ → Ripple) (n : ℕ),
      (∀ k, k < n → spawnInto h a n xs a k = h a k)
      ∧ (∀ i, ∀ hi : i < xs.length,
          spawnInto h a n xs a (n + i) = xs.get ⟨i, hi⟩) := by
  intro xs
  induction xs with
  | nil =>
    intro h n
    exact ⟨fun k _ => rfl, fun i hi => absurd hi (by simp)⟩
  | cons x xs ih =>
    intro h n
    constructor
    · intro k hk
      rw [spawnInto, (ih (writeArr h a n x) (n + 1)).1 k (by omega),
        writeArr_ne_idx _ _ _ _ _ _ (by omega)]
    · intro i hi
      cases i with
      | zero =>
        rw [spawnInto]
        simp only [Nat.add_zero]
        rw [(ih (writeArr h a n x) (n + 1)).1 n (by omega)]
        exact writeArr_self _ _ _ _
      | succ i =>
        rw [spawnInto, show n + (i + 1) = (n + 1) + i by omega,
          (ih (writeArr h a n x) (n + 1)).2 i (by simpa using hi)]
        rfl
